import Mathlib

/-
Verification of the golog terminal text viewer (src/main.go).

The program is a read-only pager: a document (list of lines) is navigated
with a cursor and a viewport.  All navigation logic lives in `main`'s event
loop and in the helper `moveCursor`.  This file is a shallow embedding of
that logic: Go ints are modelled as `Int`, Go strings as `List Char`,
Go slices of strings as `List (List Char)`.  Go indexing/slicing panics on
out-of-range arguments; where a claim depends on that, the operation is
modelled with `Option` (the renderer); the navigation operations use
`lineAt`, which returns `[]` out of range (the event loop keeps the index
in range, which is proved below as part of the invariant theorems).
-/

set_option autoImplicit false

namespace Golog

/-- The mutable program state, mirroring `appState` in src/main.go lines 12-22.
`lastGPress` is the pending-chord flag of the two-press `g` gesture. -/
structure AppState where
  lines : List (List Char)
  filename : List Char
  startLine : Int
  startCol : Int
  currentLine : Int
  currentCol : Int
  screenWidth : Int
  screenHeight : Int
  lastGPress : Bool
  deriving DecidableEq

/-- Go `lines[i]`, total model: Go panics when `i` is outside
`[0, len(lines))`; here the out-of-range result is `[]`.  Every use in the
program keeps the index in range (proved in the invariant theorems), so the
default is never consulted on reachable states. -/
def lineAt (lines : List (List Char)) (i : Int) : List Char :=
  if h : 0 ≤ i ∧ i.toNat < lines.length then lines.get ⟨i.toNat, h.2⟩ else []

/-- The `maxStart` computation that the scroll handlers repeat inline
(src/main.go lines 91-94, 135-138, 144-147):
`maxStart := len - contentHeight; if maxStart < 0 { maxStart = 0 }`. -/
def goMaxStart (len ch : Int) : Int :=
  let m := len - ch
  if m < 0 then 0 else m

/-- `clamp` as the spec's glossary defines it ("constrain a value to a
closed numeric range").  Used only to compare the spec's wording with the
code's behaviour. -/
def clampInt (lo hi x : Int) : Int :=
  max lo (min x hi)

/-- The top of the event loop, src/main.go lines 55-72 (the spec's
`Resync(screenWidth, screenHeight)`): store the dimensions, pull the
viewport up or down just enough to show the cursor, then lower
`currentCol` to the current line's length if it exceeds it. -/
def resync (w h : Int) (s0 : AppState) : AppState :=
  let s1 := { s0 with screenWidth := w, screenHeight := h }
  let contentHeight := h - 3
  let s2 :=
    if s1.currentLine < s1.startLine then { s1 with startLine := s1.currentLine } else s1
  let s3 :=
    if s2.currentLine ≥ s2.startLine + contentHeight then
      { s2 with startLine := s2.currentLine - contentHeight + 1 }
    else s2
  let cll : Int := (lineAt s3.lines s3.currentLine).length
  if s3.currentCol > cll then { s3 with currentCol := cll } else s3

/-- `moveCursor(state, dy, dx)`, src/main.go lines 184-201: each axis
accepts the moved value only when it stays in range, otherwise that axis is
a no-op; the column range is recomputed after the line change. -/
def moveCursor (s : AppState) (dy dx : Int) : AppState :=
  let s1 :=
    if dy ≠ 0 then
      let newLine := s.currentLine + dy
      if 0 ≤ newLine ∧ newLine < (s.lines.length : Int) then
        { s with currentLine := newLine }
      else s
    else s
  if dx ≠ 0 then
    let cll : Int := (lineAt s1.lines s1.currentLine).length
    let newCol := s1.currentCol + dx
    if 0 ≤ newCol ∧ newCol ≤ cll then { s1 with currentCol := newCol } else s1
  else s1

/-- Mouse wheel up, src/main.go lines 85-89: `startLine -= 3`, floored at 0
(the spec's `ScrollLines(-3)`). -/
def wheelUp (s : AppState) : AppState :=
  let sl := s.startLine - 3
  { s with startLine := if sl < 0 then 0 else sl }

/-- Mouse wheel down, src/main.go lines 90-98: `startLine += 3`, capped at
`maxStart` (the spec's `ScrollLines(+3)`). -/
def wheelDown (s : AppState) : AppState :=
  let contentHeight := s.screenHeight - 3
  let maxStart := goMaxStart (s.lines.length : Int) contentHeight
  let sl := s.startLine + 3
  { s with startLine := if sl > maxStart then maxStart else sl }

/-- Ctrl-B, src/main.go lines 128-132: page up, `startLine -= contentHeight`
floored at 0 (the spec's `PageScroll(-1)`). -/
def ctrlB (s : AppState) : AppState :=
  let contentHeight := s.screenHeight - 3
  let sl := s.startLine - contentHeight
  { s with startLine := if sl < 0 then 0 else sl }

/-- Ctrl-F, src/main.go lines 133-141: page down, `startLine += contentHeight`
capped at `maxStart` (the spec's `PageScroll(+1)`). -/
def ctrlF (s : AppState) : AppState :=
  let contentHeight := s.screenHeight - 3
  let maxStart := goMaxStart (s.lines.length : Int) contentHeight
  let sl := s.startLine + contentHeight
  { s with startLine := if sl > maxStart then maxStart else sl }

/-- Ctrl-D, src/main.go lines 142-150: half page down (Go `/` truncates
toward zero, hence `Int.tdiv`); the spec's `PageScroll(+0.5)`. -/
def ctrlD (s : AppState) : AppState :=
  let contentHeight := s.screenHeight - 3
  let maxStart := goMaxStart (s.lines.length : Int) contentHeight
  let sl := s.startLine + Int.tdiv contentHeight 2
  { s with startLine := if sl > maxStart then maxStart else sl }

/-- Ctrl-U, src/main.go lines 151-155: half page up; the spec's
`PageScroll(-0.5)`. -/
def ctrlU (s : AppState) : AppState :=
  let contentHeight := s.screenHeight - 3
  let sl := s.startLine - Int.tdiv contentHeight 2
  { s with startLine := if sl < 0 then 0 else sl }

/-- Left mouse button, src/main.go lines 99-114 (the spec's
`ClickAt(screenX, screenY)`): inside the content region, move the cursor to
the clicked document cell; the column is capped at the line length and
rejected when negative. -/
def clickAt (s : AppState) (x y : Int) : AppState :=
  if 1 ≤ y ∧ y < s.screenHeight - 2 then
    let clickLine := s.startLine + (y - 1)
    if clickLine < (s.lines.length : Int) then
      let s1 := { s with currentLine := clickLine }
      let clickCol0 := s1.startCol + (x - 1)
      let lineLen : Int := (lineAt s1.lines clickLine).length
      let clickCol := if clickCol0 > lineLen then lineLen else clickCol0
      if clickCol ≥ 0 then { s1 with currentCol := clickCol } else s1
    else s
  else s

/-- The `g` key, src/main.go lines 168-174 (the spec's
`ToggleChordOrJumpTop()`): second press of the chord jumps to line 0,
first press only sets the flag. -/
def gKey (s : AppState) : AppState :=
  if s.lastGPress then { s with currentLine := 0, lastGPress := false }
  else { s with lastGPress := true }

/-- The `G` key, src/main.go lines 175-177 (the spec's `JumpToBottom()`). -/
def bigG (s : AppState) : AppState :=
  { s with currentLine := (s.lines.length : Int) - 1, lastGPress := false }

/-- The commands of spec §4.1 as dispatched by the event loop. -/
inductive Cmd where
  | resync (w h : Int)
  | moveCursor (dy dx : Int)
  | wheelUp
  | wheelDown
  | ctrlB
  | ctrlF
  | ctrlD
  | ctrlU
  | click (x y : Int)
  | gKey
  | bigG
  deriving DecidableEq

/-- Dispatch one command to its handler. -/
def applyCmd (s : AppState) : Cmd → AppState
  | .resync w h => resync w h s
  | .moveCursor dy dx => moveCursor s dy dx
  | .wheelUp => wheelUp s
  | .wheelDown => wheelDown s
  | .ctrlB => ctrlB s
  | .ctrlF => ctrlF s
  | .ctrlD => ctrlD s
  | .ctrlU => ctrlU s
  | .click x y => clickAt s x y
  | .gKey => gKey s
  | .bigG => bigG s

/-- Apply a sequence of commands in order. -/
def applyCmds (s : AppState) (cmds : List Cmd) : AppState :=
  cmds.foldl applyCmd s

/-- The state built in src/main.go lines 35-42: cursor and viewport at
(0,0), chord flag clear; `w`/`h` are the stored screen dimensions (Go's
zero values until the first loop iteration stores real ones). -/
def initState (lines : List (List Char)) (fname : List Char) (w h : Int) : AppState :=
  { lines := lines, filename := fname, startLine := 0, startCol := 0,
    currentLine := 0, currentCol := 0, screenWidth := w, screenHeight := h,
    lastGPress := false }

/-- True when a command is not a `resync`, or is a `resync` carrying exactly
the dimensions `(w, h)`. -/
def fixedResync (w h : Int) : Cmd → Bool
  | .resync w' h' => w' == w && h' == h
  | _ => true

/-- Apply a state transformer `n` times. -/
def iterOp (f : AppState → AppState) : Nat → AppState → AppState
  | 0, s => s
  | n + 1, s => iterOp f n (f s)

/-- `strings.Split(content, "\n")`, src/main.go line 34: split on every
newline byte, no special trailing-terminator handling; the empty input
yields one empty field. -/
def goSplitLines : List Char → List (List Char)
  | [] => [[]]
  | c :: rest =>
    if c = '\n' then [] :: goSplitLines rest
    else
      match goSplitLines rest with
      | [] => [[c]]
      | r :: rs => (c :: r) :: rs

/-- `contentHeight` as derived from a state's stored height
(src/main.go line 58): the three reserved rows are the two border rows and
the status row. -/
def contentHeightOf (s : AppState) : Int :=
  s.screenHeight - 3

/-- Spec §3 invariant 3's bound: `maxStartLine = max(0, len - contentHeight)`,
written with the code's `goMaxStart`. -/
def maxStartLine (s : AppState) : Int :=
  goMaxStart (s.lines.length : Int) (contentHeightOf s)

/-- Go string slicing `l[lo:hi]`: defined only when `0 ≤ lo ≤ hi ≤ len(l)`,
otherwise Go panics, modelled as `none`. -/
def goSlice (l : List Char) (lo hi : Int) : Option (List Char) :=
  if 0 ≤ lo ∧ lo ≤ hi ∧ hi ≤ (l.length : Int) then
    some ((l.drop lo.toNat).take (hi - lo).toNat)
  else none

/-- Go `lines[i]` with the panic made explicit: `none` when `i` is outside
`[0, len(lines))`. -/
def goIndexLine (lines : List (List Char)) (i : Int) : Option (List Char) :=
  if h : 0 ≤ i ∧ i.toNat < lines.length then some (lines.get ⟨i.toNat, h.2⟩) else none

/-- The display buffer the renderer produces: border cells, the drawn
content rows as `(document line number, drawn slice)` pairs, the status
line, and the cursor's screen cell when shown. -/
structure DisplayBuffer where
  border : List (Int × Int × Char)
  content : List (Int × List Char)
  status : List Char
  cursor : Option (Int × Int)
  deriving DecidableEq

/-- `drawBorder`, src/main.go lines 252-272: the four corners, the
horizontal runs at rows 0, h-2 and h-1, and the vertical runs at columns 0
and w-1.  (The Go loops interleave the three horizontal cells per column;
the buffer here lists the same cells grouped by row.) -/
def drawBorder (w h : Int) : List (Int × Int × Char) :=
  [(0, 0, '┌'), (w - 1, 0, '┐'), (0, h - 1, '└'), (w - 1, h - 1, '┘')]
    ++ (List.range (w - 2).toNat).map (fun k => ((k : Int) + 1, 0, '─'))
    ++ (List.range (w - 2).toNat).map (fun k => ((k : Int) + 1, h - 2, '─'))
    ++ (List.range (w - 2).toNat).map (fun k => ((k : Int) + 1, h - 1, ' '))
    ++ (List.range (h - 3).toNat).map (fun k => ((0 : Int), (k : Int) + 1, '│'))
    ++ (List.range (h - 3).toNat).map (fun k => (w - 1, (k : Int) + 1, '│'))

/-- The content loop of `drawUI`, src/main.go lines 212-226: `n` is the
remaining iteration count (`contentHeight` at the top call), `lineNum` the
document line for the current row; the loop breaks at the end of the
document, skips rows whose line starts before `startCol`, and slices
`line[startCol:end]` with `end = min(startCol + (w-2), len(line))`. -/
def drawContentAux (lines : List (List Char)) (startCol w : Int) :
    Nat → Int → Option (List (Int × List Char))
  | 0, _ => some []
  | n + 1, lineNum =>
    if (lines.length : Int) ≤ lineNum then some []
    else
      match goIndexLine lines lineNum with
      | none => none
      | some line =>
        let e0 := startCol + (w - 2)
        let e := if (line.length : Int) < e0 then (line.length : Int) else e0
        if startCol < (line.length : Int) then
          match goSlice line startCol e with
          | none => none
          | some sl =>
            match drawContentAux lines startCol w n (lineNum + 1) with
            | none => none
            | some rest => some ((lineNum, sl) :: rest)
        else drawContentAux lines startCol w n (lineNum + 1)

/-- The status line of src/main.go lines 229-234, before truncation. -/
def statusString (s : AppState) : List Char :=
  (" ".data) ++ s.filename ++ (" | Line: ".data)
    ++ (toString (s.currentLine + 1)).data ++ ("/".data)
    ++ (toString s.lines.length).data ++ (" | Col: ".data)
    ++ (toString (s.currentCol + 1)).data ++ (" ".data)

/-- `drawUI`, src/main.go lines 203-250, as a pure projection from the
state to a display buffer.  It reads the state and never writes it; `none`
models the places where the Go code panics: the content slice
`line[start:end]` and the status truncation `status[:w-2]` with
out-of-range bounds. -/
def drawUI (s : AppState) : Option DisplayBuffer :=
  let w := s.screenWidth
  let h := s.screenHeight
  let border := drawBorder w h
  match drawContentAux s.lines s.startCol w (h - 3).toNat s.startLine with
  | none => none
  | some content =>
    let status := statusString s
    let statusDrawnOpt :=
      if w - 2 < (status.length : Int) then goSlice status 0 (w - 2) else some status
    match statusDrawnOpt with
    | none => none
    | some statusDrawn =>
      let relY := s.currentLine - s.startLine
      let relX := s.currentCol - s.startCol
      let cursor :=
        if 0 ≤ relY ∧ relY < h - 3 ∧ 0 ≤ relX ∧ relX < w - 2 then
          some (relX + 1, relY + 1)
        else none
      some { border := border, content := content, status := statusDrawn, cursor := cursor }

/-- The conjunction of spec §3's invariants 1-5 on a state.  Invariant 4
(vertical cursor tracking) is conditional on a positive content height, as
the spec states it. -/
def SpecInvariants (s : AppState) : Prop :=
  (0 ≤ s.currentLine ∧ s.currentLine < (s.lines.length : Int))
    ∧ (0 ≤ s.currentCol ∧ s.currentCol ≤ ((lineAt s.lines s.currentLine).length : Int))
    ∧ (0 ≤ s.startLine ∧ s.startLine ≤ maxStartLine s)
    ∧ (0 < contentHeightOf s →
        s.startLine ≤ s.currentLine ∧ s.currentLine < s.startLine + contentHeightOf s)
    ∧ 0 ≤ s.startCol

instance (s : AppState) : Decidable (SpecInvariants s) := by
  unfold SpecInvariants; infer_instance

/-! ### Helper lemmas -/

theorem moveCursor_lastGPress (s : AppState) (dy dx : Int) :
    (moveCursor s dy dx).lastGPress = s.lastGPress := by
  simp only [moveCursor]
  split_ifs <;> rfl

theorem applyCmd_startCol (s : AppState) (c : Cmd) :
    (applyCmd s c).startCol = s.startCol := by
  cases c <;>
    simp only [applyCmd, resync, moveCursor, wheelUp, wheelDown, ctrlB, ctrlF,
      ctrlD, ctrlU, clickAt, gKey, bigG] <;>
    split_ifs <;> rfl

theorem goSplitLines_ne_nil (content : List Char) :
    1 ≤ (goSplitLines content).length := by
  induction content with
  | nil => simp [goSplitLines]
  | cons c cs ih =>
    simp only [goSplitLines]
    split_ifs
    · simp
    · cases h : goSplitLines cs <;> simp

theorem moveCursor_currentLine (s : AppState) (dy dx : Int) :
    (moveCursor s dy dx).currentLine =
      (if dy ≠ 0 ∧ 0 ≤ s.currentLine + dy ∧ s.currentLine + dy < (s.lines.length : Int)
       then s.currentLine + dy else s.currentLine) := by
  simp only [moveCursor]
  by_cases hdy : dy ≠ 0
  · simp only [if_pos hdy]
    by_cases hr : 0 ≤ s.currentLine + dy ∧ s.currentLine + dy < (s.lines.length : Int)
    · simp only [if_pos hr,
        if_pos (show dy ≠ 0 ∧ 0 ≤ s.currentLine + dy
            ∧ s.currentLine + dy < (s.lines.length : Int) from ⟨hdy, hr.1, hr.2⟩)]
      split_ifs <;> rfl
    · simp only [if_neg hr,
        if_neg (show ¬(dy ≠ 0 ∧ 0 ≤ s.currentLine + dy
            ∧ s.currentLine + dy < (s.lines.length : Int)) from
          fun hk => hr ⟨hk.2.1, hk.2.2⟩)]
      split_ifs <;> rfl
  · simp only [if_neg hdy,
      if_neg (show ¬(dy ≠ 0 ∧ 0 ≤ s.currentLine + dy
          ∧ s.currentLine + dy < (s.lines.length : Int)) from fun hk => hdy hk.1)]
    split_ifs <;> rfl

theorem moveCursor_fields (s : AppState) (dy dx : Int) :
    (moveCursor s dy dx).lines = s.lines
    ∧ (moveCursor s dy dx).startLine = s.startLine
    ∧ (moveCursor s dy dx).startCol = s.startCol
    ∧ (moveCursor s dy dx).screenHeight = s.screenHeight := by
  simp only [moveCursor]
  split_ifs <;> exact ⟨rfl, rfl, rfl, rfl⟩

theorem goMaxStart_eq (len ch : Int) : goMaxStart len ch = max 0 (len - ch) := by
  simp only [goMaxStart]
  split_ifs <;> omega

theorem ctrlF_startLine_le (s : AppState) : (ctrlF s).startLine ≤ maxStartLine (ctrlF s) := by
  simp only [ctrlF, maxStartLine, contentHeightOf, goMaxStart]
  split_ifs <;> omega

theorem ctrlB_startLine_nonneg (s : AppState) : 0 ≤ (ctrlB s).startLine := by
  simp only [ctrlB]
  split_ifs <;> omega

theorem iterOp_ctrlF_le (k : Nat) : ∀ s : AppState,
    s.startLine ≤ maxStartLine s →
    (iterOp ctrlF k s).startLine ≤ maxStartLine (iterOp ctrlF k s) := by
  induction k with
  | zero => intro s hs; exact hs
  | succ n ih => intro s _; exact ih (ctrlF s) (ctrlF_startLine_le s)

theorem iterOp_ctrlB_nonneg (k : Nat) : ∀ s : AppState,
    0 ≤ s.startLine → 0 ≤ (iterOp ctrlB k s).startLine := by
  induction k with
  | zero => intro s hs; exact hs
  | succ n ih => intro s _; exact ih (ctrlB s) (ctrlB_startLine_nonneg s)

theorem iterOp_cursor_fixed (f : AppState → AppState)
    (hf : ∀ u : AppState, (f u).currentLine = u.currentLine ∧ (f u).currentCol = u.currentCol)
    (k : Nat) : ∀ s : AppState,
    (iterOp f k s).currentLine = s.currentLine ∧ (iterOp f k s).currentCol = s.currentCol := by
  induction k with
  | zero => intro s; exact ⟨rfl, rfl⟩
  | succ n ih =>
    intro s
    obtain ⟨u1, u2⟩ := ih (f s)
    exact ⟨u1.trans (hf s).1, u2.trans (hf s).2⟩

/-! ### Claim C4: the two-press chord -/

/-- C4.  The two-press chord: a first press of `g` (with the flag clear)
only sets `pendingChord`/`lastGPress` and changes nothing else; a press
with the flag set jumps to line 0 and clears the flag; and an intervening
`MoveCursor` between the two presses does not clear the flag, so
`g`, arrow-down, `g` still jumps to line 0. -/
theorem gKey_chord (s t : AppState)
    (hs : s.lastGPress = false) (ht : t.lastGPress = true) :
    gKey s = { s with lastGPress := true }
    ∧ (gKey t).currentLine = 0 ∧ (gKey t).lastGPress = false
    ∧ (moveCursor (gKey s) 1 0).lastGPress = true
    ∧ (gKey (moveCursor (gKey s) 1 0)).currentLine = 0
    ∧ (gKey (moveCursor (gKey s) 1 0)).lastGPress = false := by
  have h1 : gKey s = { s with lastGPress := true } := by
    unfold gKey; rw [hs]; simp
  have h2 : (moveCursor (gKey s) 1 0).lastGPress = true := by
    rw [moveCursor_lastGPress, h1]
  have h3 : ∀ u : AppState, u.lastGPress = true →
      (gKey u).currentLine = 0 ∧ (gKey u).lastGPress = false := by
    intro u hu; unfold gKey; rw [hu]; simp
  exact ⟨h1, (h3 t ht).1, (h3 t ht).2, h2, (h3 _ h2).1, (h3 _ h2).2⟩

/-- Concrete input for the C4 witness: a two-line document, flag clear. -/
def witC4 : AppState := initState [['a'], ['b']] [] 10 10

/-- Witness for C4 at a concrete two-line document. -/
theorem gKey_chord_witness :
    (witC4.lastGPress = false ∧ ({ witC4 with lastGPress := true }).lastGPress = true)
    ∧ (gKey witC4 = { witC4 with lastGPress := true }
        ∧ (gKey { witC4 with lastGPress := true }).currentLine = 0
        ∧ (gKey { witC4 with lastGPress := true }).lastGPress = false
        ∧ (moveCursor (gKey witC4) 1 0).lastGPress = true
        ∧ (gKey (moveCursor (gKey witC4) 1 0)).currentLine = 0
        ∧ (gKey (moveCursor (gKey witC4) 1 0)).lastGPress = false) :=
  ⟨⟨rfl, rfl⟩, gKey_chord witC4 { witC4 with lastGPress := true } rfl rfl⟩

/-! ### Claim C7: the line split -/

/-- C7.  Loading splits the raw bytes on the newline byte with no special
trailing-terminator handling: `"a\nb\nc"` gives three fields, `"a\nb\n"`
ends in an empty field, and every input (the empty one included) yields at
least one line. -/
theorem goSplitLines_spec :
    goSplitLines ("a\nb\nc".data) = ["a".data, "b".data, "c".data]
    ∧ goSplitLines ("a\nb\n".data) = ["a".data, "b".data, []]
    ∧ goSplitLines ([] : List Char) = [[]]
    ∧ ∀ content : List Char, 1 ≤ (goSplitLines content).length :=
  ⟨by decide, by decide, by decide, goSplitLines_ne_nil⟩

/-! ### Claim C9: boundary no-ops -/

/-- C9.  At the document edges a further vertical move is a no-op for the
whole state: `moveCursor 1 0` on the last line and `moveCursor (-1) 0` on
line 0 both return the state unchanged. -/
theorem moveCursor_boundary_noop (s t : AppState)
    (hs : s.currentLine = (s.lines.length : Int) - 1)
    (ht : t.currentLine = 0) :
    moveCursor s 1 0 = s ∧ moveCursor t (-1) 0 = t := by
  constructor
  · have h2 : ¬(0 ≤ s.currentLine + 1 ∧ s.currentLine + 1 < (s.lines.length : Int)) := by
      omega
    simp [moveCursor, h2]
  · simp only [moveCursor]
    rw [if_neg (by omega : ¬(0 ≤ t.currentLine + -1 ∧ t.currentLine + -1 < (t.lines.length : Int)))]
    simp

/-- Concrete input for the C9 witness: cursor on the last line of a
three-line document, and on line 0. -/
def witC9 : AppState := { initState [['a'], ['b'], ['c']] [] 10 10 with currentLine := 2 }

/-- Witness for C9 at a concrete three-line document. -/
theorem moveCursor_boundary_noop_witness :
    (witC9.currentLine = (witC9.lines.length : Int) - 1
      ∧ (initState [['a'], ['b'], ['c']] [] 10 10).currentLine = 0)
    ∧ (moveCursor witC9 1 0 = witC9
        ∧ moveCursor (initState [['a'], ['b'], ['c']] [] 10 10) (-1) 0
            = initState [['a'], ['b'], ['c']] [] 10 10) :=
  ⟨⟨by decide, by decide⟩,
    moveCursor_boundary_noop witC9 (initState [['a'], ['b'], ['c']] [] 10 10)
      (by decide) (by decide)⟩

/-! ### Claim C10: `startCol` is constantly 0 -/

/-- C10.  `startCol` is an invariant of the whole program: it starts at 0
and no command ever writes it (the renderer only reads it), so after any
command sequence the viewport still starts at column 0. -/
theorem startCol_always_zero (lines : List (List Char)) (fname : List Char)
    (w h : Int) (cmds : List Cmd) :
    (applyCmds (initState lines fname w h) cmds).startCol = 0 := by
  suffices h' : ∀ s : AppState, s.startCol = 0 → (applyCmds s cmds).startCol = 0 from
    h' _ rfl
  induction cmds with
  | nil => intro s hs; exact hs
  | cons c cs ih =>
    intro s hs
    have : applyCmds s (c :: cs) = applyCmds (applyCmd s c) cs := rfl
    rw [this]
    exact ih _ ((applyCmd_startCol s c).trans hs)

/-! ### Claim C8: page scroll bounds -/

/-- C8.  Starting from any state with `0 ≤ startLine ≤ maxStartLine`,
repeating `PageScroll(+1)` (Ctrl-F) never drives `startLine` above
`maxStartLine` and repeating `PageScroll(-1)` (Ctrl-B) never drives it
below 0, for any number of repetitions; neither touches the cursor. -/
theorem pageScroll_bounds (s : AppState) (k : Nat)
    (hs : 0 ≤ s.startLine ∧ s.startLine ≤ maxStartLine s) :
    (iterOp ctrlF k s).startLine ≤ maxStartLine (iterOp ctrlF k s)
    ∧ 0 ≤ (iterOp ctrlB k s).startLine
    ∧ (iterOp ctrlF k s).currentLine = s.currentLine
    ∧ (iterOp ctrlF k s).currentCol = s.currentCol
    ∧ (iterOp ctrlB k s).currentLine = s.currentLine
    ∧ (iterOp ctrlB k s).currentCol = s.currentCol := by
  have hF := iterOp_cursor_fixed ctrlF (fun u => ⟨rfl, rfl⟩) k s
  have hB := iterOp_cursor_fixed ctrlB (fun u => ⟨rfl, rfl⟩) k s
  exact ⟨iterOp_ctrlF_le k s hs.2, iterOp_ctrlB_nonneg k s hs.1, hF.1, hF.2, hB.1, hB.2⟩

/-- Concrete input for the C8 witness: a ten-line document on a
ten-row screen (`contentHeight = 7`, `maxStartLine = 3`). -/
def witC8 : AppState := initState (List.replicate 10 ['a']) [] 20 10

/-- Witness for C8: five repetitions on the concrete ten-line state. -/
theorem pageScroll_bounds_witness :
    (0 ≤ witC8.startLine ∧ witC8.startLine ≤ maxStartLine witC8)
    ∧ ((iterOp ctrlF 5 witC8).startLine ≤ maxStartLine (iterOp ctrlF 5 witC8)
        ∧ 0 ≤ (iterOp ctrlB 5 witC8).startLine
        ∧ (iterOp ctrlF 5 witC8).currentLine = witC8.currentLine
        ∧ (iterOp ctrlF 5 witC8).currentCol = witC8.currentCol
        ∧ (iterOp ctrlB 5 witC8).currentLine = witC8.currentLine
        ∧ (iterOp ctrlB 5 witC8).currentCol = witC8.currentCol) :=
  ⟨by decide, pageScroll_bounds witC8 5 (by decide)⟩

/-! ### Claim C5: click mapping -/

/-- C5.  `ClickAt` is a no-op outside the content region
(`screenY - 1 ∉ [0, screenHeight-3)`, written `¬(1 ≤ y ∧ y < h-2)`) and
when the target line is past the document; otherwise it sets
`currentLine = startLine + (screenY-1)` and, when the raw column
`startCol + (screenX-1)` is non-negative, `currentCol` to that raw value
capped at the line length, leaving `currentCol` unchanged when the raw
value is negative. -/
theorem clickAt_spec (s : AppState) (x y : Int) (hsl : 0 ≤ s.startLine) :
    (¬(1 ≤ y ∧ y < s.screenHeight - 2) → clickAt s x y = s)
    ∧ ((1 ≤ y ∧ y < s.screenHeight - 2) →
        (s.lines.length : Int) ≤ s.startLine + (y - 1) → clickAt s x y = s)
    ∧ ((1 ≤ y ∧ y < s.screenHeight - 2) →
        s.startLine + (y - 1) < (s.lines.length : Int) →
        (clickAt s x y).currentLine = s.startLine + (y - 1)
        ∧ (0 ≤ s.startCol + (x - 1) →
            (clickAt s x y).currentCol =
              min (s.startCol + (x - 1))
                ((lineAt s.lines (s.startLine + (y - 1))).length : Int))
        ∧ (s.startCol + (x - 1) < 0 → (clickAt s x y).currentCol = s.currentCol)
        ∧ (clickAt s x y).startLine = s.startLine
        ∧ (clickAt s x y).startCol = s.startCol
        ∧ (clickAt s x y).lines = s.lines
        ∧ (clickAt s x y).lastGPress = s.lastGPress) := by
  refine ⟨?_, ?_, ?_⟩
  · intro hy
    simp only [clickAt]
    rw [if_neg hy]
  · intro hy hlen
    simp only [clickAt]
    rw [if_pos hy, if_neg (by omega : ¬(s.startLine + (y - 1) < (s.lines.length : Int)))]
  · intro hy hlt
    simp only [clickAt]
    rw [if_pos hy, if_pos hlt]
    refine ⟨?_, ?_, ?_, ?_, ?_, ?_, ?_⟩ <;> try intro hraw
    all_goals split_ifs <;> (try dsimp only) <;> first | rfl | omega

/-- Concrete input for the C5 witness: `startLine = 5`, `startCol = 2`, an
eight-line document, screen height 6 (content height 3), click at (4,3). -/
def witC5 : AppState :=
  { initState (List.replicate 8 ['a', 'b']) [] 20 6 with startLine := 5, startCol := 2 }

/-- Witness for C5 at the spec's own example: the click lands on line 7
and column `min(5, len(Document[7]))`. -/
theorem clickAt_spec_witness :
    0 ≤ witC5.startLine
    ∧ ((¬(1 ≤ (3 : Int) ∧ (3 : Int) < witC5.screenHeight - 2) → clickAt witC5 4 3 = witC5)
        ∧ ((1 ≤ (3 : Int) ∧ (3 : Int) < witC5.screenHeight - 2) →
            (witC5.lines.length : Int) ≤ witC5.startLine + (3 - 1) → clickAt witC5 4 3 = witC5)
        ∧ ((1 ≤ (3 : Int) ∧ (3 : Int) < witC5.screenHeight - 2) →
            witC5.startLine + (3 - 1) < (witC5.lines.length : Int) →
            (clickAt witC5 4 3).currentLine = witC5.startLine + (3 - 1)
            ∧ (0 ≤ witC5.startCol + (4 - 1) →
                (clickAt witC5 4 3).currentCol =
                  min (witC5.startCol + (4 - 1))
                    ((lineAt witC5.lines (witC5.startLine + (3 - 1))).length : Int))
            ∧ (witC5.startCol + (4 - 1) < 0 → (clickAt witC5 4 3).currentCol = witC5.currentCol)
            ∧ (clickAt witC5 4 3).startLine = witC5.startLine
            ∧ (clickAt witC5 4 3).startCol = witC5.startCol
            ∧ (clickAt witC5 4 3).lines = witC5.lines
            ∧ (clickAt witC5 4 3).lastGPress = witC5.lastGPress)) :=
  ⟨by decide, clickAt_spec witC5 4 3 (by decide)⟩

/-! ### Claim C2: resync -/

/-- C2 (amended).  With a positive content height and the cursor on a valid
line, `Resync` moves `startLine` by the minimum adjustment that makes the
cursor visible, and lowers `currentCol` to the current line's length when
it exceeds it — which, for the program's reachable states
(`currentCol ≥ 0`), is exactly clamping `currentCol` to
`[0, len(Document[currentLine])]`.  (A negative `currentCol`, impossible in
the program, would be left unchanged, so the unrestricted claim fails; see
the counterexample.) -/
theorem resync_minimal_adjust (s : AppState) (w h : Int)
    (hch : 0 < h - 3)
    (hcur : 0 ≤ s.currentLine ∧ s.currentLine < (s.lines.length : Int))
    (hcol : 0 ≤ s.currentCol) :
    (resync w h s).startLine =
      (if s.currentLine < s.startLine then s.currentLine
       else if s.startLine + (h - 3) ≤ s.currentLine then s.currentLine - (h - 3) + 1
       else s.startLine)
    ∧ (resync w h s).currentCol =
        clampInt 0 ((lineAt s.lines s.currentLine).length : Int) s.currentCol
    ∧ (resync w h s).currentLine = s.currentLine
    ∧ (resync w h s).startCol = s.startCol
    ∧ (resync w h s).lines = s.lines
    ∧ (resync w h s).screenWidth = w
    ∧ (resync w h s).screenHeight = h := by
  simp only [resync]
  try dsimp only
  by_cases hc1 : s.currentLine < s.startLine
  · simp only [if_pos hc1]
    try dsimp only
    rw [if_neg (by omega : ¬(s.currentLine ≥ s.currentLine + (h - 3)))]
    try dsimp only
    refine ⟨?_, ?_, ?_, ?_, ?_, ?_, ?_⟩ <;>
      split_ifs <;> simp only [clampInt] <;> (try dsimp only) <;> first | rfl | omega
  · simp only [if_neg hc1]
    try dsimp only
    by_cases hc2 : s.currentLine ≥ s.startLine + (h - 3)
    · simp only [if_pos hc2,
        if_pos (show s.startLine + (h - 3) ≤ s.currentLine from hc2)]
      try dsimp only
      refine ⟨?_, ?_, ?_, ?_, ?_, ?_, ?_⟩ <;>
        split_ifs <;> simp only [clampInt] <;> (try dsimp only) <;> first | rfl | omega
    · simp only [if_neg hc2,
        if_neg (show ¬(s.startLine + (h - 3) ≤ s.currentLine) from hc2)]
      try dsimp only
      refine ⟨?_, ?_, ?_, ?_, ?_, ?_, ?_⟩ <;>
        split_ifs <;> simp only [clampInt] <;> (try dsimp only) <;> first | rfl | omega

/-- Concrete state for the C2 counterexample: a one-line empty document,
cursor on line 0 with `currentCol = -1`, screen height 10. -/
def cexC2 : AppState := { initState [[]] [] 10 10 with currentCol := -1 }

/-- C2 counterexample.  The claim's hypotheses hold (`contentHeight = 7 > 0`,
cursor on a valid line) yet `Resync` does not clamp `currentCol` to
`[0, len]`: the code only lowers it when it exceeds the length, so the
negative value -1 survives where the claimed clamp would give 0. -/
theorem resync_no_lower_clamp_cex :
    0 < contentHeightOf cexC2
    ∧ 0 ≤ cexC2.currentLine ∧ cexC2.currentLine < (cexC2.lines.length : Int)
    ∧ (resync 10 10 cexC2).currentCol = -1
    ∧ (resync 10 10 cexC2).currentCol
        ≠ clampInt 0 ((lineAt cexC2.lines cexC2.currentLine).length : Int)
            cexC2.currentCol := by
  decide

/-- Concrete state for the C2 witness: a 100-line document, screen height
10 (`contentHeight = 7`), viewport at the top, cursor on line 50;
`Resync` yields `startLine = 50 - 7 + 1 = 44`. -/
def witC2 : AppState := { initState (List.replicate 100 []) [] 10 10 with currentLine := 50 }

/-- Witness for C2 at the spec's viewport-tracking example. -/
theorem resync_minimal_adjust_witness :
    (0 < (10 : Int) - 3
      ∧ (0 ≤ witC2.currentLine ∧ witC2.currentLine < (witC2.lines.length : Int))
      ∧ 0 ≤ witC2.currentCol)
    ∧ ((resync 10 10 witC2).startLine =
        (if witC2.currentLine < witC2.startLine then witC2.currentLine
         else if witC2.startLine + (10 - 3) ≤ witC2.currentLine then
           witC2.currentLine - (10 - 3) + 1
         else witC2.startLine)
        ∧ (resync 10 10 witC2).currentCol =
            clampInt 0 ((lineAt witC2.lines witC2.currentLine).length : Int) witC2.currentCol
        ∧ (resync 10 10 witC2).currentLine = witC2.currentLine
        ∧ (resync 10 10 witC2).startCol = witC2.startCol
        ∧ (resync 10 10 witC2).lines = witC2.lines
        ∧ (resync 10 10 witC2).screenWidth = 10
        ∧ (resync 10 10 witC2).screenHeight = 10) :=
  ⟨⟨by decide, by decide, by decide⟩,
    resync_minimal_adjust witC2 10 10 (by decide) (by decide) (by decide)⟩

/-! ### Claim C3: cursor movement -/

/-- C3 (amended).  On a state satisfying invariants 1-2, `MoveCursor`
evaluates the two axes independently, line first: each axis accepts the
moved value only when it stays in range (`[0, len-1]` for the line,
`[0, L]` for the column, `L` the possibly-changed current line's length)
and is a no-op for that axis otherwise.  For the unit line steps the mapper
issues (`dLine ∈ {-1, 0, 1}`) the line axis coincides with the claimed
clamp; for larger steps, and for the column whenever a line change strands
`currentCol` beyond the new line's end, it does not (see the
counterexample). -/
theorem moveCursor_axes (s : AppState) (dy dx : Int)
    (h1 : 0 ≤ s.currentLine ∧ s.currentLine < (s.lines.length : Int))
    (h2 : 0 ≤ s.currentCol ∧ s.currentCol ≤ ((lineAt s.lines s.currentLine).length : Int)) :
    (moveCursor s dy dx).currentLine =
      (if dy ≠ 0 ∧ 0 ≤ s.currentLine + dy ∧ s.currentLine + dy < (s.lines.length : Int)
       then s.currentLine + dy else s.currentLine)
    ∧ (moveCursor s dy dx).currentCol =
        (if dx ≠ 0 ∧ 0 ≤ s.currentCol + dx
            ∧ s.currentCol + dx ≤
                ((lineAt s.lines ((moveCursor s dy dx).currentLine)).length : Int)
         then s.currentCol + dx else s.currentCol)
    ∧ (dy = 1 ∨ dy = 0 ∨ dy = -1 →
        (moveCursor s dy dx).currentLine =
          clampInt 0 ((s.lines.length : Int) - 1) (s.currentLine + dy))
    ∧ (moveCursor s dy dx).lines = s.lines
    ∧ (moveCursor s dy dx).startLine = s.startLine
    ∧ (moveCursor s dy dx).startCol = s.startCol
    ∧ (moveCursor s dy dx).lastGPress = s.lastGPress := by
  have hline := moveCursor_currentLine s dy dx
  have hflds := moveCursor_fields s dy dx
  have hflag := moveCursor_lastGPress s dy dx
  have hclamp : dy = 1 ∨ dy = 0 ∨ dy = -1 →
      (moveCursor s dy dx).currentLine =
        clampInt 0 ((s.lines.length : Int) - 1) (s.currentLine + dy) := by
    intro hdy
    rw [hline]
    simp only [clampInt]
    rcases hdy with h | h | h <;> subst h <;> split_ifs <;> omega
  have hcol : (moveCursor s dy dx).currentCol =
      (if dx ≠ 0 ∧ 0 ≤ s.currentCol + dx
          ∧ s.currentCol + dx ≤
              ((lineAt s.lines ((moveCursor s dy dx).currentLine)).length : Int)
       then s.currentCol + dx else s.currentCol) := by
    rw [hline]
    simp only [moveCursor]
    by_cases hdy : dy ≠ 0
    · simp only [if_pos hdy]
      by_cases hr : 0 ≤ s.currentLine + dy ∧ s.currentLine + dy < (s.lines.length : Int)
      · simp only [if_pos hr,
          if_pos (show dy ≠ 0 ∧ 0 ≤ s.currentLine + dy
              ∧ s.currentLine + dy < (s.lines.length : Int) from ⟨hdy, hr.1, hr.2⟩)]
        try dsimp only
        split_ifs <;> (try dsimp only) <;> omega
      · simp only [if_neg hr,
          if_neg (show ¬(dy ≠ 0 ∧ 0 ≤ s.currentLine + dy
              ∧ s.currentLine + dy < (s.lines.length : Int)) from
            fun hk => hr ⟨hk.2.1, hk.2.2⟩)]
        try dsimp only
        split_ifs <;> (try dsimp only) <;> omega
    · simp only [if_neg hdy,
        if_neg (show ¬(dy ≠ 0 ∧ 0 ≤ s.currentLine + dy
            ∧ s.currentLine + dy < (s.lines.length : Int)) from fun hk => hdy hk.1)]
      try dsimp only
      split_ifs <;> (try dsimp only) <;> omega
  exact ⟨hline, hcol, hclamp, hflds.1, hflds.2.1, hflds.2.2.1, hflag⟩

/-- Concrete state for the C3 counterexample: a three-line document with
the cursor at the origin. -/
def cexC3 : AppState := initState [['a'], ['b'], ['c']] [] 10 10

/-- C3 counterexample.  On a state satisfying invariants 1-2,
`MoveCursor(5, 0)` does not clamp: `currentLine + 5 = 5` is out of range,
so the move is a no-op leaving `currentLine = 0`, where the claimed clamp
to `[0, len-1]` would give 2. -/
theorem moveCursor_not_clamp_cex :
    (0 ≤ cexC3.currentLine ∧ cexC3.currentLine < (cexC3.lines.length : Int))
    ∧ (0 ≤ cexC3.currentCol
        ∧ cexC3.currentCol ≤ ((lineAt cexC3.lines cexC3.currentLine).length : Int))
    ∧ (moveCursor cexC3 5 0).currentLine = 0
    ∧ (moveCursor cexC3 5 0).currentLine
        ≠ clampInt 0 ((cexC3.lines.length : Int) - 1) (cexC3.currentLine + 5) := by
  decide

/-- Concrete state for the C3 witness: cursor at (1,1) in a three-line
document whose lines have length 2. -/
def witC3 : AppState :=
  { initState [['a', 'b'], ['c', 'd'], ['e', 'f']] [] 10 10 with
      currentLine := 1, currentCol := 1 }

/-- Witness for C3 at a concrete diagonal step. -/
theorem moveCursor_axes_witness :
    ((0 ≤ witC3.currentLine ∧ witC3.currentLine < (witC3.lines.length : Int))
      ∧ (0 ≤ witC3.currentCol
          ∧ witC3.currentCol ≤ ((lineAt witC3.lines witC3.currentLine).length : Int)))
    ∧ ((moveCursor witC3 1 1).currentLine =
        (if (1 : Int) ≠ 0 ∧ 0 ≤ witC3.currentLine + 1
            ∧ witC3.currentLine + 1 < (witC3.lines.length : Int)
         then witC3.currentLine + 1 else witC3.currentLine)
      ∧ (moveCursor witC3 1 1).currentCol =
          (if (1 : Int) ≠ 0 ∧ 0 ≤ witC3.currentCol + 1
              ∧ witC3.currentCol + 1 ≤
                  ((lineAt witC3.lines ((moveCursor witC3 1 1).currentLine)).length : Int)
           then witC3.currentCol + 1 else witC3.currentCol)
      ∧ ((1 : Int) = 1 ∨ (1 : Int) = 0 ∨ (1 : Int) = -1 →
          (moveCursor witC3 1 1).currentLine =
            clampInt 0 ((witC3.lines.length : Int) - 1) (witC3.currentLine + 1))
      ∧ (moveCursor witC3 1 1).lines = witC3.lines
      ∧ (moveCursor witC3 1 1).startLine = witC3.startLine
      ∧ (moveCursor witC3 1 1).startCol = witC3.startCol
      ∧ (moveCursor witC3 1 1).lastGPress = witC3.lastGPress) :=
  ⟨⟨by decide, by decide⟩, moveCursor_axes witC3 1 1 (by decide) (by decide)⟩

/-! ### Claim C6: the renderer -/

theorem drawContentAux_isSome (lines : List (List Char)) (sc w : Int)
    (hsc : 0 ≤ sc) (hw : 2 ≤ w) :
    ∀ (n : Nat) (ln : Int), 0 ≤ ln → (drawContentAux lines sc w n ln).isSome = true := by
  intro n
  induction n with
  | zero => intro ln _; rfl
  | succ n ih =>
    intro ln hln
    simp only [drawContentAux]
    by_cases hend : (lines.length : Int) ≤ ln
    · rw [if_pos hend]
      rfl
    · rw [if_neg hend]
      have hcond : 0 ≤ ln ∧ ln.toNat < lines.length := ⟨hln, by omega⟩
      unfold goIndexLine
      rw [dif_pos hcond]
      dsimp only
      have hlen : ((lines.get ⟨ln.toNat, hcond.2⟩).length : Int) ≥ 0 := by positivity
      by_cases hstart : sc < ((lines.get ⟨ln.toNat, hcond.2⟩).length : Int)
      · rw [if_pos hstart]
        have hrec := ih (ln + 1) (by omega)
        obtain ⟨rest, hrest⟩ := Option.isSome_iff_exists.mp hrec
        by_cases he : ((lines.get ⟨ln.toNat, hcond.2⟩).length : Int) < sc + (w - 2)
        · rw [if_pos he]
          unfold goSlice
          rw [if_pos ⟨hsc, by omega, by omega⟩, hrest]
          rfl
        · rw [if_neg he]
          unfold goSlice
          rw [if_pos ⟨hsc, by omega, by omega⟩, hrest]
          rfl
      · rw [if_neg hstart]
        exact ih (ln + 1) (by omega)

/-- C6 (amended).  On every state satisfying invariants 1-5 with positive
screen dimensions and `screenWidth ≥ 2`, the renderer produces its display
buffer without failing: degenerate heights (`contentHeight ≤ 0`) give an
empty content region.  `drawUI` is a pure function of the state — it never
writes any field of the state or the document (it takes the state only as
an input and builds a separate buffer).  The unrestricted claim
(`screenWidth > 0`) fails at `screenWidth = 1`, where the Go code's status
truncation `status[:w-2]` and content slice `line[start:end]` have negative
bounds and panic; see the counterexample. -/
theorem drawUI_total_of_two_le_width (s : AppState)
    (hinv : SpecInvariants s) (hh : 0 < s.screenHeight) (hw : 2 ≤ s.screenWidth) :
    (drawUI s).isSome = true := by
  obtain ⟨h1, h2, ⟨hsl0, hsl1⟩, h4, hsc⟩ := hinv
  have hcontent := drawContentAux_isSome s.lines s.startCol s.screenWidth hsc hw
    ((s.screenHeight - 3).toNat) s.startLine hsl0
  obtain ⟨content, hcontent⟩ := Option.isSome_iff_exists.mp hcontent
  have hstatus : (if s.screenWidth - 2 < ((statusString s).length : Int) then
      goSlice (statusString s) 0 (s.screenWidth - 2) else some (statusString s)).isSome
      = true := by
    split_ifs with ht
    · unfold goSlice
      rw [if_pos ⟨le_refl 0, by omega, by omega⟩]
      rfl
    · rfl
  obtain ⟨st, hst⟩ := Option.isSome_iff_exists.mp hstatus
  unfold drawUI
  dsimp only
  rw [hcontent]
  dsimp only
  rw [hst]
  rfl

/-- Concrete state for the C6 counterexample: a one-line document on a
screen of width 1 and height 10; all five invariants hold. -/
def cexC6 : AppState := initState [['a']] [] 1 10

/-- C6 counterexample.  The renderer is claimed never to fail for all
`screenWidth > 0`, but at `screenWidth = 1` the content slice
`line[start:end]` is taken with `end = start + (1-2) = start - 1 < start`
(and the status truncation would take `status[:-1]`), which panics in Go;
the model returns `none`. -/
theorem drawUI_width_one_cex :
    SpecInvariants cexC6
    ∧ 0 < cexC6.screenWidth ∧ 0 < cexC6.screenHeight
    ∧ drawUI cexC6 = none := by
  decide

/-- Concrete state for the C6 witness: same document at width 2. -/
def witC6 : AppState := initState [['a']] [] 2 10

/-- Witness for C6 at width 2: the renderer succeeds. -/
theorem drawUI_total_witness :
    (SpecInvariants witC6 ∧ 0 < witC6.screenHeight ∧ 2 ≤ witC6.screenWidth)
    ∧ (drawUI witC6).isSome = true :=
  ⟨⟨by decide, by decide, by decide⟩,
    drawUI_total_of_two_le_width witC6 (by decide) (by decide) (by decide)⟩

/-! ### Claim C1: the startLine invariant -/

/-- The induction invariant for C1: the document and stored height are
unchanged, the cursor is on a valid line, and `startLine` is within
`[0, maxStartLine]`. -/
def StateInv (lines0 : List (List Char)) (h0 : Int) (s : AppState) : Prop :=
  s.lines = lines0 ∧ s.screenHeight = h0
    ∧ 0 ≤ s.currentLine ∧ s.currentLine < (lines0.length : Int)
    ∧ 0 ≤ s.startLine ∧ s.startLine ≤ goMaxStart (lines0.length : Int) (h0 - 3)

theorem applyCmd_inv (lines0 : List (List Char)) (w0 h0 : Int) (hh : 4 ≤ h0)
    (c : Cmd) (hc : fixedResync w0 h0 c = true) (s : AppState)
    (hs : StateInv lines0 h0 s) : StateInv lines0 h0 (applyCmd s c) := by
  obtain ⟨hl, hsh, hcur0, hcur1, hst0, hst1⟩ := hs
  subst hl
  subst hsh
  rw [goMaxStart_eq] at hst1
  cases c with
  | resync w h =>
    simp only [fixedResync, Bool.and_eq_true, beq_iff_eq] at hc
    obtain ⟨hw, hh'⟩ := hc
    subst hw
    subst hh'
    simp only [applyCmd, resync, StateInv, goMaxStart_eq]
    try dsimp only
    by_cases hb1 : s.currentLine < s.startLine
    · simp only [if_pos hb1]
      try dsimp only
      rw [if_neg (by omega : ¬(s.currentLine ≥ s.currentLine + (s.screenHeight - 3)))]
      try dsimp only
      split_ifs <;> (try dsimp only) <;> (repeat' apply And.intro) <;> first | trivial | omega
    · simp only [if_neg hb1]
      try dsimp only
      by_cases hb2 : s.currentLine ≥ s.startLine + (s.screenHeight - 3)
      · simp only [if_pos hb2]
        try dsimp only
        split_ifs <;> (try dsimp only) <;> (repeat' apply And.intro) <;> first | trivial | omega
      · simp only [if_neg hb2]
        try dsimp only
        split_ifs <;> (try dsimp only) <;> (repeat' apply And.intro) <;> first | trivial | omega
  | moveCursor dy dx =>
    have hline := moveCursor_currentLine s dy dx
    have hflds := moveCursor_fields s dy dx
    simp only [applyCmd, StateInv]
    refine ⟨hflds.1, hflds.2.2.2, ?_, ?_, ?_, ?_⟩
    · rw [hline]; split_ifs <;> omega
    · rw [hline]; split_ifs <;> omega
    · rw [hflds.2.1]; omega
    · rw [hflds.2.1, goMaxStart_eq]; omega
  | wheelUp =>
    simp only [applyCmd, wheelUp, StateInv, goMaxStart_eq]
    split_ifs <;> (try dsimp only) <;> (repeat' apply And.intro) <;> first | trivial | omega
  | wheelDown =>
    simp only [applyCmd, wheelDown, StateInv, goMaxStart_eq]
    split_ifs <;> (try dsimp only) <;> (repeat' apply And.intro) <;> first | trivial | omega
  | ctrlB =>
    simp only [applyCmd, ctrlB, StateInv, goMaxStart_eq]
    split_ifs <;> (try dsimp only) <;> (repeat' apply And.intro) <;> first | trivial | omega
  | ctrlF =>
    simp only [applyCmd, ctrlF, StateInv, goMaxStart_eq]
    split_ifs <;> (try dsimp only) <;> (repeat' apply And.intro) <;> first | trivial | omega
  | ctrlD =>
    have hdiv : 0 ≤ Int.tdiv (s.screenHeight - 3) 2 := Int.tdiv_nonneg (by omega) (by omega)
    simp only [applyCmd, ctrlD, StateInv, goMaxStart_eq]
    split_ifs <;> (try dsimp only) <;> (repeat' apply And.intro) <;> first | trivial | omega
  | ctrlU =>
    have hdiv : 0 ≤ Int.tdiv (s.screenHeight - 3) 2 := Int.tdiv_nonneg (by omega) (by omega)
    simp only [applyCmd, ctrlU, StateInv, goMaxStart_eq]
    split_ifs <;> (try dsimp only) <;> (repeat' apply And.intro) <;> first | trivial | omega
  | click x y =>
    simp only [applyCmd, clickAt, StateInv, goMaxStart_eq]
    split_ifs with hy hline hcol <;> (try dsimp only) <;>
      (repeat' apply And.intro) <;> first | trivial | omega
  | gKey =>
    simp only [applyCmd, gKey, StateInv, goMaxStart_eq]
    split_ifs <;> (try dsimp only) <;> (repeat' apply And.intro) <;> first | trivial | omega
  | bigG =>
    simp only [applyCmd, bigG, StateInv, goMaxStart_eq]
    (repeat' apply And.intro) <;> (try dsimp only) <;> first | trivial | omega

theorem applyCmds_inv (lines0 : List (List Char)) (w0 h0 : Int) (hh : 4 ≤ h0) :
    ∀ (cmds : List Cmd) (s : AppState), cmds.all (fixedResync w0 h0) = true →
      StateInv lines0 h0 s → StateInv lines0 h0 (applyCmds s cmds) := by
  intro cmds
  induction cmds with
  | nil => intro s _ hs; exact hs
  | cons c cs ih =>
    intro s hall hs
    rw [List.all_cons, Bool.and_eq_true] at hall
    exact ih (applyCmd s c) hall.2 (applyCmd_inv lines0 w0 h0 hh c hall.1 s hs)

theorem initState_inv (lines0 : List (List Char)) (fname : List Char) (w0 h0 : Int)
    (hne : lines0 ≠ []) : StateInv lines0 h0 (initState lines0 fname w0 h0) := by
  have hpos : 0 < lines0.length := List.length_pos.mpr hne
  simp only [StateInv, initState, goMaxStart_eq]
  (repeat' apply And.intro) <;> first | trivial | omega

/-- C1 (amended).  For every non-empty document, starting from the initial
state (cursor and viewport at (0,0)) with fixed screen dimensions of
height at least 4 (`contentHeight ≥ 1`), after any sequence of §4.1
commands whose `Resync`s all carry those same dimensions, the state
satisfies `0 ≤ startLine ≤ maxStartLine`.  The unrestricted claim —
arbitrary positive dimensions — is false: degenerate heights
(`contentHeight ≤ 0`) let `PageScroll(+1)` drive `startLine` negative, and
a `Resync` that grows the screen can leave `startLine` above the shrunken
`maxStartLine`; see the counterexample. -/
theorem startLine_invariant (lines0 : List (List Char)) (fname : List Char)
    (w0 h0 : Int) (cmds : List Cmd)
    (hne : lines0 ≠ []) (hh : 4 ≤ h0)
    (hfix : cmds.all (fixedResync w0 h0) = true) :
    0 ≤ (applyCmds (initState lines0 fname w0 h0) cmds).startLine
    ∧ (applyCmds (initState lines0 fname w0 h0) cmds).startLine
        ≤ maxStartLine (applyCmds (initState lines0 fname w0 h0) cmds) := by
  have hinv := applyCmds_inv lines0 w0 h0 hh cmds (initState lines0 fname w0 h0) hfix
    (initState_inv lines0 fname w0 h0 hne)
  obtain ⟨hl, hsh, _, _, h5, h6⟩ := hinv
  refine ⟨h5, ?_⟩
  unfold maxStartLine contentHeightOf
  rw [hl, hsh]
  exact h6

/-- C1 counterexample.  With the positive screen dimensions (5, 1)
(`contentHeight = -2`) on a one-line document, the sequence
`Resync(5,1); PageScroll(+1); PageScroll(+1)` drives `startLine` to -1:
invariant 3 (`0 ≤ startLine`) is violated after a command, so the claim
over arbitrary positive dimensions fails. -/
theorem startLine_invariant_cex :
    (applyCmds (initState [['a']] [] 0 0) [Cmd.resync 5 1, Cmd.ctrlF, Cmd.ctrlF]).startLine
      = -1
    ∧ ¬(0 ≤ (applyCmds (initState [['a']] [] 0 0)
          [Cmd.resync 5 1, Cmd.ctrlF, Cmd.ctrlF]).startLine) := by
  decide

/-- Concrete command list for the C1 witness. -/
def witC1Cmds : List Cmd :=
  [Cmd.resync 20 10, Cmd.moveCursor 1 0, Cmd.ctrlF, Cmd.gKey, Cmd.wheelDown,
    Cmd.click 3 2, Cmd.bigG, Cmd.resync 20 10, Cmd.ctrlD, Cmd.ctrlU, Cmd.ctrlB]

/-- Witness for C1: a concrete five-line document, screen 20 by 10, and a
command list exercising every handler. -/
theorem startLine_invariant_witness :
    ((List.replicate 5 ['a'] : List (List Char)) ≠ [] ∧ (4 : Int) ≤ 10
      ∧ witC1Cmds.all (fixedResync 20 10) = true)
    ∧ (0 ≤ (applyCmds (initState (List.replicate 5 ['a']) [] 20 10) witC1Cmds).startLine
        ∧ (applyCmds (initState (List.replicate 5 ['a']) [] 20 10) witC1Cmds).startLine
            ≤ maxStartLine (applyCmds (initState (List.replicate 5 ['a']) [] 20 10) witC1Cmds)) :=
  ⟨⟨by decide, by decide, by decide⟩,
    startLine_invariant (List.replicate 5 ['a']) [] 20 10 witC1Cmds
      (by decide) (by decide) (by decide)⟩

end Golog
